import Mathlib

/-!
Shallow embedding of `src/google-streetmaps/google_street_view.py`
(the `GoogleStreetView` node) and proofs about it.

Conventions of the embedding:
* Python strings are Lean `String`s; character-level operations work on
  `String.data : List Char`.  Only the ASCII fragment of Python's Unicode
  behaviour (`str.lower`, whitespace stripping, `int()` digits) is modelled;
  every concrete string in the development is ASCII.
* Python `None` is `Option.none`; a parameter value that may be `None`
  is an `Option`.
* Exceptions raised by the code are modelled with `Except`/`Option` results.
* External collaborators (HTTP client, the static-file store) are arguments
  of the functions that use them.
-/

/-- Characters stripped by Python `str.strip()` and by `int(str)`
(ASCII fragment: space, tab, newline, carriage return, vertical tab,
form feed). -/
def isPySpace (c : Char) : Bool :=
  c == ' ' || c == '\t' || c == '\n' || c == '\r' || c == '\x0b' || c == '\x0c'

/-- Python `str.strip()` on a list of characters: drop whitespace from
both ends. -/
def pyStrip (l : List Char) : List Char :=
  ((l.dropWhile isPySpace).reverse.dropWhile isPySpace).reverse

/-- Numeric value of a list of decimal digit characters (most significant
first), as computed by positional accumulation. -/
def digitsVal (l : List Char) : Nat :=
  l.foldl (fun a c => a * 10 + (c.toNat - 48)) 0

/-- Scanner for the tail of a Python integer literal: digits, where an
underscore must be followed by a digit (single underscores between digits). -/
def goDigits : List Char → Bool
  | [] => true
  | [c] => !(c == '_') && c.isDigit
  | c :: d :: rest =>
    if c == '_' then d.isDigit && goDigits rest
    else c.isDigit && goDigits (d :: rest)

/-- A valid Python decimal digit string (after sign): nonempty, starts with
a digit, underscores only between digits. -/
def validUD (l : List Char) : Bool :=
  match l with
  | [] => false
  | c :: rest => c.isDigit && goDigits rest

/-- Python `int(s)` for a decimal string: strip whitespace, optional single
sign, then digits with optional single underscores between digits.
Returns `none` where CPython raises `ValueError`. -/
def pyIntOpt (l : List Char) : Option Int :=
  let t := pyStrip l
  match t with
  | [] => none
  | c :: rest =>
    if c == '+' then
      if validUD rest then some (Int.ofNat (digitsVal (rest.filter (fun d => d != '_')))) else none
    else if c == '-' then
      if validUD rest then some (-(Int.ofNat (digitsVal (rest.filter (fun d => d != '_'))))) else none
    else
      if validUD t then some (Int.ofNat (digitsVal (t.filter (fun d => d != '_')))) else none

/-- Python `s.split(sep)` for a one-character separator: the groups of
characters between occurrences of `sep` (`"".split(sep) = ['']`). -/
def pySplitChar (sep : Char) : List Char → List (List Char)
  | [] => [[]]
  | c :: rest =>
    let r := pySplitChar sep rest
    if c == sep then [] :: r
    else
      match r with
      | [] => [[c]]
      | g :: gs => (c :: g) :: gs

/-- Python `str.lower()` (ASCII fragment), characterwise. -/
def pyLower (l : List Char) : List Char := l.map Char.toLower

/-- `GoogleStreetView._validate_size_format` (source lines 159-168):
lowercase the string, require an `x`, split on `x` into exactly two parts,
parse both with `int()`, and check `w > 0 and h > 0 and w <= 640 and
h <= 640`.  Any `ValueError` (wrong number of parts, unparsable side)
yields `False`. -/
def _validate_size_format (size : String) : Bool :=
  let low := pyLower size.data
  if !(low.contains 'x') then false
  else
    match pySplitChar 'x' low with
    | [width, height] =>
      match pyIntOpt width, pyIntOpt height with
      | some w, some h => decide (0 < w) && decide (0 < h) && decide (w ≤ 640) && decide (h ≤ 640)
      | _, _ => false
    | _ => false

/-- The size pattern as the specification states it: the regex
`^\d+x\d+$` — one or more ASCII digits, a literal lowercase `x`, one or
more ASCII digits.  Stated here from the spec, to be compared with the
source's `_validate_size_format`. -/
def specSizePattern (s : String) : Bool :=
  match pySplitChar 'x' s.data with
  | [w, h] => !w.isEmpty && !h.isEmpty && w.all Char.isDigit && h.all Char.isDigit
  | _ => false

/-- Message of the missing-API-key validation error (source line 144). -/
def apiKeyErrorMsg : String :=
  "Google Maps API key not found. Please set the GOOGLE_MAPS_API_KEY environment variable."

/-- Message of the missing-address validation error (source line 150). -/
def addressErrorMsg : String := "Address is required."

/-- Message of the bad-size validation error (source line 155). -/
def sizeErrorMsg : String :=
  "Invalid size format. Use \x27widthxheight\x27 (e.g., \x27600x400\x27)."

/-- Python truthiness of an optional string: `None` and `""` are falsy. -/
def pyTruthy : Option String → Bool
  | none => false
  | some s => !s.data.isEmpty

/-- Errors contributed by the API-key check of `validate_node`
(source lines 141-145): one error when the configured key is `None` or
empty. -/
def apiKeyErrs (api_key : Option String) : List String :=
  if pyTruthy api_key then [] else [apiKeyErrorMsg]

/-- Errors contributed by the address check of `validate_node`
(source lines 148-150): `not address or not address.strip()`. -/
def addressErrs (address : Option String) : List String :=
  match address with
  | none => [addressErrorMsg]
  | some a => if a.data.isEmpty || (pyStrip a.data).isEmpty then [addressErrorMsg] else []

/-- Errors contributed by the size check of `validate_node`
(source lines 153-155): `if size and not self._validate_size_format(size)`. -/
def sizeErrs (size : Option String) : List String :=
  match size with
  | none => []
  | some s =>
    if !s.data.isEmpty && !(_validate_size_format s) then [sizeErrorMsg] else []

/-- `GoogleStreetView.validate_node` (source lines 136-157): append the
errors of the three independent checks in order and return `None` when
there are none.  The error values are modelled by their message strings
(the code wraps each in `ValueError`). -/
def validate_node (api_key address size : Option String) : Option (List String) :=
  let errors := apiKeyErrs api_key ++ addressErrs address ++ sizeErrs size
  if errors.isEmpty then none else some errors

/-- The node parameter state read by the source through
`get_parameter_value` / `get_config_value`: the configured API key and the
eight declared parameters.  `api_key`, `address` and `size` may be `None`;
`heading` defaults to `None`; the remaining fields carry their typed
values. -/
structure ParamState where
  api_key : Option String
  address : Option String
  size : Option String
  heading : Option Int
  fov : Int
  pitch : Int
  radius : Int
  source : String
  return_error_code : Bool

/-- `validate_node` on the node state: the source reads only the API key,
`address` and `size` parameters (source lines 136-157). -/
def validate_node_state (st : ParamState) : Option (List String) :=
  validate_node st.api_key st.address st.size

/-- The fixed base endpoint (source line 14). -/
def BASE_URL : String := "https://maps.googleapis.com/maps/api/streetview"

/-- UTF-8 encoding of one character, as the byte values. -/
def utf8Bytes (c : Char) : List Nat :=
  let n := c.toNat
  if n < 128 then [n]
  else if n < 2048 then [192 + n / 64, 128 + n % 64]
  else if n < 65536 then [224 + n / 4096, 128 + (n / 64) % 64, 128 + n % 64]
  else [240 + n / 262144, 128 + (n / 4096) % 64, 128 + (n / 64) % 64, 128 + n % 64]

/-- Bytes `urllib.parse.quote` leaves unencoded with the default
`safe='/'`: ASCII letters and digits, `_`, `.`, `-`, `~` and `/`. -/
def isSafeByte (b : Nat) : Bool :=
  (65 ≤ b && b ≤ 90) || (97 ≤ b && b ≤ 122) || (48 ≤ b && b ≤ 57) ||
  b == 95 || b == 46 || b == 45 || b == 126 || b == 47

/-- Uppercase hexadecimal digit of a value below 16. -/
def hexDigitChar (n : Nat) : Char :=
  if n < 10 then Char.ofNat (48 + n) else Char.ofNat (55 + n)

/-- `urllib.parse.quote` applied to one byte: the byte itself when safe,
otherwise `%` followed by two uppercase hex digits. -/
def quoteByte (b : Nat) : List Char :=
  if isSafeByte b then [Char.ofNat b] else ['%', hexDigitChar (b / 16), hexDigitChar (b % 16)]

/-- `urllib.parse.quote(s)` with the default `safe='/'`: UTF-8 encode the
string and percent-encode every unsafe byte. -/
def quote (s : String) : String :=
  ⟨((s.data.map utf8Bytes).flatten.map quoteByte).flatten⟩

/-- Python `str(v)` for an optional string parameter value: `None` renders
as `"None"` inside an f-string. -/
def pyStr : Option String → String
  | none => "None"
  | some s => s

/-- The three required query entries of `_build_request_url` (source lines
175-179 and 205-206).  The code first stores the raw address under
`location` and later overwrites it with `urllib.parse.quote` of the
address; a Python dict keeps the slot of an overwritten key, so `location`
stays first, already quoted here. -/
def requiredEntries (addr : String) (size api_key : Option String) : List (String × String) :=
  [("location", quote addr), ("size", pyStr size), ("key", pyStr api_key)]

/-- The conditional `heading` entry (source lines 182-184): added exactly
when the parameter is not `None`. -/
def headingEntries : Option Int → List (String × String)
  | none => []
  | some h => [("heading", toString h)]

/-- The conditional `fov` entry (source lines 186-188): added when `fov != 90`. -/
def fovEntries (fov : Int) : List (String × String) :=
  if fov = 90 then [] else [("fov", toString fov)]

/-- The conditional `pitch` entry (source lines 190-192): added when `pitch != 0`. -/
def pitchEntries (pitch : Int) : List (String × String) :=
  if pitch = 0 then [] else [("pitch", toString pitch)]

/-- The conditional `radius` entry (source lines 194-196): added when `radius != 50`. -/
def radiusEntries (radius : Int) : List (String × String) :=
  if radius = 50 then [] else [("radius", toString radius)]

/-- The conditional `source` entry (source lines 198-200): added when
`source != "default"`. -/
def sourceEntries (source : String) : List (String × String) :=
  if source = "default" then [] else [("source", source)]

/-- The conditional `return_error_code` entry (source lines 202-203):
added, with literal value `true`, exactly when the boolean flag is true. -/
def recEntries (return_error_code : Bool) : List (String × String) :=
  if return_error_code then [("return_error_code", "true")] else []

/-- The ordered query entries assembled by `_build_request_url` (source
lines 170-206), with values already rendered as the f-string join renders
them.  `none` models the `TypeError` that `urllib.parse.quote(None)`
raises when the address parameter is `None`. -/
def buildParams (st : ParamState) : Option (List (String × String)) :=
  st.address.map fun addr =>
    requiredEntries addr st.size st.api_key ++ headingEntries st.heading ++
    fovEntries st.fov ++ pitchEntries st.pitch ++ radiusEntries st.radius ++
    sourceEntries st.source ++ recEntries st.return_error_code

/-- Python `sep.join(parts)`. -/
def pyJoin (sep : String) : List String → String
  | [] => ""
  | [x] => x
  | x :: rest => x ++ sep ++ pyJoin sep rest

/-- `GoogleStreetView._build_request_url` (source lines 170-210): join the
query entries as `k=v` pairs with `&` and prefix the base endpoint and
`?`. -/
def _build_request_url (st : ParamState) : Option String :=
  (buildParams st).map fun ps =>
    BASE_URL ++ "?" ++ pyJoin "&" (ps.map fun kv => kv.1 ++ "=" ++ kv.2)

/-- `GoogleStreetView._handle_api_response` (source lines 212-233): map
the status code to an error message (modelling the raised `ValueError`s),
or on 200 hand the response body to the static-file store collaborator
`save` (modelling `StaticFilesManager().save_static_file`) and return the
reference URL it produces.  The timestamped filename argument is owned by
the collaborator model. -/
def _handle_api_response (status_code : Nat) (content : List Nat)
    (save : List Nat → String) : Except String String :=
  if status_code = 404 then .error "No Street View imagery available for this location."
  else if status_code = 400 then .error "Invalid request parameters."
  else if status_code = 403 then .error "API key invalid or quota exceeded."
  else if status_code ≠ 200 then .error ("Street View API error: " ++ toString status_code)
  else .ok (save content)

/-- Outcome of the single `requests.get(url, timeout=30)` call: either an
HTTP response (status code and body bytes) or a raised transport exception
(timeout, connection error) carrying its message. -/
inductive HttpOutcome where
  | response (status_code : Nat) (content : List Nat)
  | transportError (msg : String)

/-- A value published through `publish_update_to_parameter`, in order:
either the `street_view_image` output (the `ImageUrlArtifact` is modelled
by the URL it wraps) or the `status` output. -/
inductive Published where
  | image (url : String)
  | status (msg : String)
deriving DecidableEq

/-- Is a publication a `status` publication? -/
def isStatusPub : Published → Bool
  | .status _ => true
  | .image _ => false

/-- The message CPython gives the `TypeError` raised by
`urllib.parse.quote(None)` on the absent-address path. -/
def typeErrorMsg : String := "quote_from_bytes() expected bytes"

/-- The body of `GoogleStreetView.process` (source lines 235-275): the
`fetch_street_view` closure that `process` yields.  Returns the ordered
list of parameter publications and the execution outcome (`.ok` with the
saved image URL, or `.error` with the message of the raised
`RuntimeError`).  On any exception the handler publishes one failure
status and re-raises; on success it publishes the image artifact and then
the success status. -/
def fetch_street_view (st : ParamState) (http : HttpOutcome)
    (save : List Nat → String) : List Published × Except String String :=
  match st.address with
  | none =>
    let m := "Failed to fetch Street View image: " ++ typeErrorMsg
    ([.status m], .error m)
  | some addr =>
    match http with
    | .transportError e =>
      let m := "Failed to fetch Street View image: " ++ e
      ([.status m], .error m)
    | .response code content =>
      match _handle_api_response code content save with
      | .error e =>
        let m := "Failed to fetch Street View image: " ++ e
        ([.status m], .error m)
      | .ok image_url =>
        ([.image image_url,
          .status ("Street View image fetched successfully for: " ++ addr)],
         .ok image_url)

/-! ### Digit strings

A string matching the spec pattern `^\d+x\d+$` is parametrised by two
nonempty lists of decimal digits. -/

/-- The character of a decimal digit. -/
def dChar (d : Fin 10) : Char := Char.ofNat (48 + d.val)

/-- The characters of a list of decimal digits. -/
def dChars (l : List (Fin 10)) : List Char := l.map dChar

/-- The number denoted by a list of decimal digits, most significant
first. -/
def digitsToNat (l : List (Fin 10)) : Nat := l.foldl (fun a d => 10 * a + d.val) 0

lemma dChar_isDigit : ∀ d : Fin 10, (dChar d).isDigit = true := by decide

lemma dChar_toLower : ∀ d : Fin 10, (dChar d).toLower = dChar d := by decide

lemma dChar_beq_x : ∀ d : Fin 10, ((dChar d) == 'x') = false := by decide

lemma dChar_beq_underscore : ∀ d : Fin 10, ((dChar d) == '_') = false := by decide

lemma dChar_bne_underscore : ∀ d : Fin 10, ((dChar d) != '_') = true := by decide

lemma dChar_beq_plus : ∀ d : Fin 10, ((dChar d) == '+') = false := by decide

lemma dChar_beq_minus : ∀ d : Fin 10, ((dChar d) == '-') = false := by decide

lemma dChar_not_space : ∀ d : Fin 10, isPySpace (dChar d) = false := by decide

lemma dChar_toNat : ∀ d : Fin 10, (dChar d).toNat = 48 + d.val := by decide

/-- Every decimal digit character is `dChar` of a digit. -/
lemma exists_dChar_of_isDigit {c : Char} (h : c.isDigit = true) :
    ∃ d : Fin 10, dChar d = c := by
  have hb : 48 ≤ c.toNat ∧ c.toNat ≤ 57 := by
    simp [Char.isDigit, UInt32.le_def, BitVec.le_def] at h
    exact h
  refine ⟨⟨c.toNat - 48, by omega⟩, ?_⟩
  have hv : 48 + (c.toNat - 48) = c.toNat := by omega
  simp only [dChar, hv, Char.ofNat_toNat]

/-- `dropWhile` is the identity when no element satisfies the predicate. -/
lemma dropWhile_all_false {p : Char → Bool} {l : List Char}
    (h : ∀ c ∈ l, p c = false) : l.dropWhile p = l := by
  cases l with
  | nil => rfl
  | cons c rest => simp [List.dropWhile, h c (by simp)]

/-- `pyStrip` is the identity on lists without Python whitespace. -/
lemma pyStrip_id {l : List Char} (h : ∀ c ∈ l, isPySpace c = false) :
    pyStrip l = l := by
  unfold pyStrip
  rw [dropWhile_all_false h, dropWhile_all_false (by simpa using h), List.reverse_reverse]

lemma goDigits_dChars (l : List (Fin 10)) : goDigits (dChars l) = true := by
  induction l with
  | nil => rfl
  | cons d rest ih =>
    cases rest with
    | nil => simp [dChars, goDigits, dChar_beq_underscore, dChar_isDigit]
    | cons d2 rest2 =>
      simp only [dChars, List.map_cons, goDigits, dChar_beq_underscore, dChar_isDigit,
        Bool.false_eq_true, if_false, Bool.true_and] at ih ⊢
      exact ih

lemma validUD_dChars {l : List (Fin 10)} (h : l ≠ []) : validUD (dChars l) = true := by
  cases l with
  | nil => simp at h
  | cons d rest =>
    simp only [dChars, List.map_cons, validUD, dChar_isDigit, Bool.true_and]
    simpa [dChars] using goDigits_dChars rest

lemma filter_dChars (l : List (Fin 10)) :
    (dChars l).filter (fun d => d != '_') = dChars l := by
  rw [List.filter_eq_self]
  intro c hc
  simp only [dChars, List.mem_map] at hc
  obtain ⟨d, _, rfl⟩ := hc
  exact dChar_bne_underscore d

lemma digitsVal_dChars (l : List (Fin 10)) : digitsVal (dChars l) = digitsToNat l := by
  suffices h : ∀ a : Nat, (dChars l).foldl (fun a c => a * 10 + (c.toNat - 48)) a =
      l.foldl (fun a d => 10 * a + d.val) a by
    exact h 0
  induction l with
  | nil => intro a; rfl
  | cons d rest ih =>
    intro a
    simp only [dChars, List.map_cons, List.foldl_cons] at ih ⊢
    rw [dChar_toNat]
    have : a * 10 + (48 + d.val - 48) = 10 * a + d.val := by omega
    rw [this]
    exact ih _

/-- Python `int()` evaluates a plain decimal digit string to its value. -/
lemma pyIntOpt_dChars {l : List (Fin 10)} (h : l ≠ []) :
    pyIntOpt (dChars l) = some (Int.ofNat (digitsToNat l)) := by
  have hs : pyStrip (dChars l) = dChars l := by
    apply pyStrip_id
    intro c hc
    simp only [dChars, List.mem_map] at hc
    obtain ⟨d, _, rfl⟩ := hc
    exact dChar_not_space d
  cases l with
  | nil => simp at h
  | cons d rest =>
    unfold pyIntOpt
    simp only [dChars, List.map_cons] at hs ⊢
    rw [hs]
    have hv : validUD (dChar d :: List.map dChar rest) = true := by
      simpa [dChars] using validUD_dChars (l := d :: rest) (by simp)
    have hf : (dChar d :: List.map dChar rest).filter (fun c => c != '_') =
        dChar d :: List.map dChar rest := by
      simpa [dChars] using filter_dChars (d :: rest)
    have hd : digitsVal (dChar d :: List.map dChar rest) = digitsToNat (d :: rest) := by
      simpa [dChars] using digitsVal_dChars (d :: rest)
    simp only [dChar_beq_plus, dChar_beq_minus, Bool.false_eq_true, if_false, hv, if_true, hf, hd]

/-! ### Properties of `pySplitChar` -/

lemma pySplitChar_cons (sep c : Char) (rest : List Char) :
    pySplitChar sep (c :: rest) =
      if c == sep then [] :: pySplitChar sep rest
      else match pySplitChar sep rest with
        | [] => [[c]]
        | g :: gs => (c :: g) :: gs := rfl

lemma pySplitChar_ne_nil (sep : Char) (l : List Char) : pySplitChar sep l ≠ [] := by
  cases l with
  | nil => simp [pySplitChar]
  | cons c rest =>
    unfold pySplitChar
    by_cases h : (c == sep) = true
    · simp [h]
    · simp only [Bool.not_eq_true] at h
      simp only [h, Bool.false_eq_true, if_false]
      cases pySplitChar sep rest <;> simp

lemma pySplitChar_no_sep {sep : Char} {l : List Char}
    (h : ∀ c ∈ l, (c == sep) = false) : pySplitChar sep l = [l] := by
  induction l with
  | nil => rfl
  | cons c rest ih =>
    unfold pySplitChar
    rw [ih (fun x hx => h x (by simp [hx]))]
    simp [h c (by simp)]

lemma pySplitChar_append {sep : Char} {w h : List Char}
    (hw : ∀ c ∈ w, (c == sep) = false) :
    pySplitChar sep (w ++ sep :: h) = w :: pySplitChar sep h := by
  induction w with
  | nil =>
    rw [List.nil_append, pySplitChar_cons]
    simp
  | cons c rest ih =>
    rw [List.cons_append, pySplitChar_cons, ih (fun x hx => hw x (by simp [hx]))]
    simp [hw c (by simp)]

lemma pySplitChar_eq_one {sep : Char} {l a : List Char}
    (h : pySplitChar sep l = [a]) : l = a ∧ ∀ c ∈ a, (c == sep) = false := by
  induction l generalizing a with
  | nil =>
    simp only [pySplitChar] at h
    obtain rfl : ([] : List Char) = a := by simpa using h
    simp
  | cons c rest ih =>
    unfold pySplitChar at h
    by_cases hc : (c == sep) = true
    · rw [if_pos hc] at h
      obtain ⟨rfl, h2⟩ := List.cons_eq_cons.mp h
      exact absurd h2 (pySplitChar_ne_nil sep rest)
    · simp only [Bool.not_eq_true] at hc
      rw [hc, if_neg (by simp)] at h
      rcases hr : pySplitChar sep rest with _ | ⟨g, gs⟩
      · exact absurd hr (pySplitChar_ne_nil sep rest)
      · rw [hr] at h
        obtain ⟨rfl, h2⟩ := List.cons_eq_cons.mp h
        obtain rfl : gs = [] := by simpa using h2.symm ▸ rfl
        obtain ⟨rfl, hg⟩ := ih (a := g) (by rw [hr])
        refine ⟨rfl, ?_⟩
        intro x hx
        rcases List.mem_cons.mp hx with rfl | hx2
        · exact hc
        · exact hg x hx2

lemma pySplitChar_eq_two {sep : Char} {l a b : List Char}
    (h : pySplitChar sep l = [a, b]) :
    l = a ++ sep :: b ∧ (∀ c ∈ a, (c == sep) = false) ∧ ∀ c ∈ b, (c == sep) = false := by
  induction l generalizing a with
  | nil => simp [pySplitChar] at h
  | cons c rest ih =>
    rw [pySplitChar_cons] at h
    by_cases hc : (c == sep) = true
    · rw [if_pos hc] at h
      obtain ⟨rfl, h2⟩ := List.cons_eq_cons.mp h
      obtain ⟨rfl, hb⟩ := pySplitChar_eq_one h2
      have : c = sep := by simpa using hc
      subst this
      exact ⟨rfl, by simp, hb⟩
    · simp only [Bool.not_eq_true] at hc
      rw [hc, if_neg (by simp)] at h
      rcases hr : pySplitChar sep rest with _ | ⟨g, gs⟩
      · exact absurd hr (pySplitChar_ne_nil sep rest)
      · rw [hr] at h
        obtain ⟨h1, h2⟩ := List.cons_eq_cons.mp h
        subst h2
        obtain ⟨hrest, hg, hb⟩ := ih (a := g) hr
        refine ⟨?_, ?_, hb⟩
        · rw [← h1, hrest]
          simp
        · intro x hx
          rw [← h1] at hx
          rcases List.mem_cons.mp hx with rfl | hx2
          · exact hc
          · exact hg x hx2

/-! ### Characterisation of `_validate_size_format` on digit strings -/

lemma pyLower_dChars_x (w h : List (Fin 10)) :
    pyLower (dChars w ++ 'x' :: dChars h) = dChars w ++ 'x' :: dChars h := by
  have hmap : ∀ l : List (Fin 10), (dChars l).map Char.toLower = dChars l := by
    intro l
    simp only [dChars, List.map_map]
    exact List.map_congr_left fun d _ => dChar_toLower d
  simp only [pyLower, List.map_append, List.map_cons, hmap]
  rfl

lemma contains_x (w h : List Char) : ((w ++ 'x' :: h).contains 'x') = true := by
  simp [List.contains, List.elem_eq_mem]

/-- On a string of the spec shape `digits x digits`, the source's size
check accepts exactly when both numbers are in `(0, 640]`. -/
lemma validate_size_format_digits {w h : List (Fin 10)} (hw : w ≠ []) (hh : h ≠ []) :
    _validate_size_format ⟨dChars w ++ 'x' :: dChars h⟩ =
      (decide (0 < digitsToNat w) && decide (0 < digitsToNat h) &&
       decide (digitsToNat w ≤ 640) && decide (digitsToNat h ≤ 640)) := by
  unfold _validate_size_format
  have hlow : pyLower (String.mk (dChars w ++ 'x' :: dChars h)).data =
      dChars w ++ 'x' :: dChars h := pyLower_dChars_x w h
  rw [hlow]
  have hsplit : pySplitChar 'x' (dChars w ++ 'x' :: dChars h) = [dChars w, dChars h] := by
    rw [pySplitChar_append (fun c hc => by
      obtain ⟨d, _, rfl⟩ := List.mem_map.mp hc
      exact dChar_beq_x d)]
    rw [pySplitChar_no_sep (fun c hc => by
      obtain ⟨d, _, rfl⟩ := List.mem_map.mp hc
      exact dChar_beq_x d)]
  simp only [contains_x, Bool.not_true, Bool.false_eq_true, if_false, hsplit,
    pyIntOpt_dChars hw, pyIntOpt_dChars hh]
  have h1 : decide (0 < Int.ofNat (digitsToNat w)) = decide (0 < digitsToNat w) := by
    simp [Int.ofNat_pos]
  have h2 : decide (Int.ofNat (digitsToNat w) ≤ 640) = decide (digitsToNat w ≤ 640) := by
    rw [Bool.eq_iff_iff]
    simp only [decide_eq_true_iff, Int.ofNat_eq_natCast]
    omega
  have h3 : decide (0 < Int.ofNat (digitsToNat h)) = decide (0 < digitsToNat h) := by
    simp [Int.ofNat_pos]
  have h4 : decide (Int.ofNat (digitsToNat h) ≤ 640) = decide (digitsToNat h ≤ 640) := by
    rw [Bool.eq_iff_iff]
    simp only [decide_eq_true_iff, Int.ofNat_eq_natCast]
    omega
  simp only [h1, h2, h3, h4]

/-- Every list of decimal digit characters is the rendering of a digit
list. -/
lemma exists_dChars_of_all_digit {l : List Char} (h : ∀ c ∈ l, c.isDigit = true) :
    ∃ w : List (Fin 10), l = dChars w := by
  induction l with
  | nil => exact ⟨[], rfl⟩
  | cons x xs ih =>
    obtain ⟨w, rfl⟩ := ih (fun c hc => h c (by simp [hc]))
    obtain ⟨d, rfl⟩ := exists_dChar_of_isDigit (h x (by simp))
    exact ⟨d :: w, rfl⟩

/-- The spec pattern `^\d+x\d+$` holds exactly of the strings built from
two nonempty digit lists around an `x`. -/
lemma specSizePattern_iff (s : String) :
    specSizePattern s = true ↔
      ∃ w h : List (Fin 10), w ≠ [] ∧ h ≠ [] ∧ s.data = dChars w ++ 'x' :: dChars h := by
  constructor
  · intro hp
    unfold specSizePattern at hp
    rcases hsp : pySplitChar 'x' s.data with _ | ⟨a, rest⟩
    · exact absurd hsp (pySplitChar_ne_nil _ _)
    · rcases rest with _ | ⟨b, rest2⟩
      · rw [hsp] at hp; simp at hp
      · rcases rest2 with _ | ⟨c, rest3⟩
        · rw [hsp] at hp
          simp only [Bool.and_eq_true, Bool.not_eq_true', List.all_eq_true] at hp
          obtain ⟨⟨⟨ha, hb⟩, hda⟩, hdb⟩ := hp
          obtain ⟨w, rfl⟩ := exists_dChars_of_all_digit hda
          obtain ⟨h, rfl⟩ := exists_dChars_of_all_digit hdb
          obtain ⟨hdecomp, _, _⟩ := pySplitChar_eq_two hsp
          refine ⟨w, h, ?_, ?_, hdecomp⟩
          · intro hnil; subst hnil; simp [dChars] at ha
          · intro hnil; subst hnil; simp [dChars] at hb
        · rw [hsp] at hp; simp at hp
  · rintro ⟨w, h, hw, hh, hdecomp⟩
    unfold specSizePattern
    rw [hdecomp]
    rw [pySplitChar_append (fun c hc => by
      obtain ⟨d, _, rfl⟩ := List.mem_map.mp hc
      exact dChar_beq_x d)]
    rw [pySplitChar_no_sep (fun c hc => by
      obtain ⟨d, _, rfl⟩ := List.mem_map.mp hc
      exact dChar_beq_x d)]
    simp only [Bool.and_eq_true, Bool.not_eq_true', List.all_eq_true]
    refine ⟨⟨⟨?_, ?_⟩, ?_⟩, ?_⟩
    · simpa [dChars] using hw
    · simpa [dChars] using hh
    · intro c hc
      obtain ⟨d, _, rfl⟩ := List.mem_map.mp hc
      exact dChar_isDigit d
    · intro c hc
      obtain ⟨d, _, rfl⟩ := List.mem_map.mp hc
      exact dChar_isDigit d

/-- A non-200 status code always classifies as an error. -/
lemma handle_api_response_error {code : Nat} (h : code ≠ 200) (content : List Nat)
    (save : List Nat → String) :
    ∃ e, _handle_api_response code content save = Except.error e := by
  unfold _handle_api_response
  split_ifs with h1 h2 h3
  all_goals exact ⟨_, rfl⟩

/-! ### The claims -/

/-- Claim C2: the response classifier maps 200 to a success carrying
exactly the body bytes (they are handed unchanged to the persistence
collaborator), 404/400/403 to failures with their fixed messages, and any
other code `c` to a failure whose message is `"Street View API error: "`
followed by the decimal rendering of `c`. -/
theorem C2_response_classifier :
    ∀ (body : List Nat) (save : List Nat → String),
      _handle_api_response 200 body save = .ok (save body)
      ∧ _handle_api_response 404 body save =
          .error "No Street View imagery available for this location."
      ∧ _handle_api_response 400 body save = .error "Invalid request parameters."
      ∧ _handle_api_response 403 body save = .error "API key invalid or quota exceeded."
      ∧ ∀ c : Nat, c ≠ 200 → c ≠ 404 → c ≠ 400 → c ≠ 403 →
          _handle_api_response c body save =
            .error ("Street View API error: " ++ toString c) := by
  intro body save
  refine ⟨rfl, rfl, rfl, rfl, ?_⟩
  intro c h200 h404 h400 h403
  unfold _handle_api_response
  rw [if_neg h404, if_neg h400, if_neg h403, if_pos h200]

/-- Witness for C2 at status code 418 with an empty body: the failure
message is the prefix followed by the decimal rendering `418`. -/
theorem C2_response_classifier_witness :
    _handle_api_response 418 [] (fun _ => "u") = .error "Street View API error: 418" := by
  have h := (C2_response_classifier [] (fun _ => "u")).2.2.2.2 418
    (by decide) (by decide) (by decide) (by decide)
  exact h.trans (by rfl)

/-- Claim C3: with heading absent, fov 90, pitch 0, radius 50, source
`"default"` and return_error_code false, the built URL is the base
endpoint, `?`, and exactly the three query entries `location`, `size`,
`key`, for every address, size string and credential. -/
theorem C3_default_omission :
    ∀ addr sz key : String,
      buildParams ⟨some key, some addr, some sz, none, 90, 0, 50, "default", false⟩ =
        some [("location", quote addr), ("size", sz), ("key", key)]
      ∧ _build_request_url ⟨some key, some addr, some sz, none, 90, 0, 50, "default", false⟩ =
        some (BASE_URL ++ "?" ++
          pyJoin "&" ["location=" ++ quote addr, "size=" ++ sz, "key=" ++ key]) := by
  intro addr sz key
  exact ⟨rfl, rfl⟩

/-- Claim C9: the size check lowercases its input and parses each side
with general integer parsing, so strings outside the spec pattern
`^\d+x\d+$` — an uppercase `X`, leading whitespace in a dimension, an
explicit sign — are accepted as valid. -/
theorem C9_tolerant_size_check :
    (specSizePattern "600X400" = false ∧ _validate_size_format "600X400" = true)
    ∧ (specSizePattern " 600x400" = false ∧ _validate_size_format " 600x400" = true)
    ∧ (specSizePattern "+600x400" = false ∧ _validate_size_format "+600x400" = true) := by
  exact ⟨⟨rfl, rfl⟩, ⟨rfl, rfl⟩, ⟨rfl, rfl⟩⟩

/-- Claim C5: each execution of the node's processing step publishes the
`status` output exactly once — on the success path after the image, with
the success message naming the address, and on every failure path as the
only publication, carrying the message of the fatal error that is then
raised. -/
theorem C5_status_published_once :
    ∀ (st : ParamState) (http : HttpOutcome) (save : List Nat → String),
      ((fetch_street_view st http save).1.countP isStatusPub = 1)
      ∧ (∀ url, (fetch_street_view st http save).2 = .ok url →
          ∃ addr, st.address = some addr ∧
            (fetch_street_view st http save).1 =
              [.image url, .status ("Street View image fetched successfully for: " ++ addr)])
      ∧ (∀ e, (fetch_street_view st http save).2 = .error e →
          (fetch_street_view st http save).1 = [.status e]) := by
  intro st http save
  obtain ⟨k, a, sz, hd, f, pt, r, src, rec⟩ := st
  cases a with
  | none =>
    refine ⟨rfl, ?_, ?_⟩
    · intro url hurl
      simp [fetch_street_view] at hurl
    · intro e he
      simp only [fetch_street_view] at he ⊢
      obtain rfl : _ = e := by simpa using he
      rfl
  | some addr =>
    cases http with
    | transportError m =>
      refine ⟨rfl, ?_, ?_⟩
      · intro url hurl
        simp [fetch_street_view] at hurl
      · intro e he
        simp only [fetch_street_view] at he ⊢
        obtain rfl : _ = e := by simpa using he
        rfl
    | response code content =>
      rcases hresp : _handle_api_response code content save with e0 | u0
      · refine ⟨?_, ?_, ?_⟩
        · simp [fetch_street_view, hresp, List.countP, List.countP.go, isStatusPub]
        · intro url hurl
          simp [fetch_street_view, hresp] at hurl
        · intro e he
          simp only [fetch_street_view, hresp] at he ⊢
          obtain rfl : _ = e := by simpa using he
          rfl
      · refine ⟨?_, ?_, ?_⟩
        · simp [fetch_street_view, hresp, List.countP, List.countP.go, isStatusPub]
        · intro url hurl
          simp only [fetch_street_view, hresp] at hurl ⊢
          obtain rfl : u0 = url := by simpa using hurl
          exact ⟨addr, rfl, rfl⟩
        · intro e he
          simp [fetch_street_view, hresp] at he

/-- Witness for C5 on a failure path: a 404 response publishes exactly
the one failure status whose message is the error message raised. -/
theorem C5_status_published_once_witness :
    (fetch_street_view ⟨some "k", some "a", some "600x400", none, 90, 0, 50, "default", true⟩
      (.response 404 []) (fun _ => "u")).1 =
      [.status "Failed to fetch Street View image: No Street View imagery available for this location."] := by
  exact (C5_status_published_once
    ⟨some "k", some "a", some "600x400", none, 90, 0, 50, "default", true⟩
    (.response 404 []) (fun _ => "u")).2.2 _ rfl

/-- Claim C6: the `street_view_image` output is never published when the
response classification fails (status code other than 200) or a transport
exception occurs; an image publication happens only on the success path,
and then carries the saved image URL the execution returns. -/
theorem C6_image_only_on_success :
    ∀ (st : ParamState) (save : List Nat → String),
      (∀ code content, code ≠ 200 →
        ∀ u, Published.image u ∉ (fetch_street_view st (.response code content) save).1)
      ∧ (∀ m u, Published.image u ∉ (fetch_street_view st (.transportError m) save).1)
      ∧ (∀ http u, Published.image u ∈ (fetch_street_view st http save).1 →
          (fetch_street_view st http save).2 = .ok u) := by
  intro st save
  obtain ⟨k, a, sz, hd, f, pt, r, src, rec⟩ := st
  refine ⟨?_, ?_, ?_⟩
  · intro code content hcode u
    cases a with
    | none => simp [fetch_street_view]
    | some addr =>
      obtain ⟨e, he⟩ := handle_api_response_error hcode content save
      simp [fetch_street_view, he]
  · intro m u
    cases a with
    | none => simp [fetch_street_view]
    | some addr => simp [fetch_street_view]
  · intro http u hmem
    cases a with
    | none => simp [fetch_street_view] at hmem
    | some addr =>
      cases http with
      | transportError m => simp [fetch_street_view] at hmem
      | response code content =>
        rcases hresp : _handle_api_response code content save with e0 | u0
        · simp [fetch_street_view, hresp] at hmem
        · simp only [fetch_street_view, hresp] at hmem ⊢
          obtain rfl : u = u0 := by simpa using hmem
          rfl

/-- Witness for C6: on a 404 response no image value is published. -/
theorem C6_image_only_on_success_witness :
    Published.image "u" ∉
      (fetch_street_view ⟨some "k", some "a", some "600x400", none, 90, 0, 50, "default", true⟩
        (.response 404 []) (fun _ => "u")).1 := by
  exact (C6_image_only_on_success
    ⟨some "k", some "a", some "600x400", none, 90, 0, 50, "default", true⟩
    (fun _ => "u")).1 404 [] (by decide) "u"

/-- Claim C7: in the built query, only the address is percent-encoded;
the values of `size`, `key`, `heading`, `fov`, `pitch`, `radius` and
`source` are inserted verbatim (integers in their decimal rendering),
whatever characters they contain. -/
theorem C7_only_address_encoded :
    ∀ (addr sz key src : String) (hd f pt r : Int),
      f ≠ 90 → pt ≠ 0 → r ≠ 50 → src ≠ "default" →
      buildParams ⟨some key, some addr, some sz, some hd, f, pt, r, src, true⟩ =
        some [("location", quote addr), ("size", sz), ("key", key),
              ("heading", toString hd), ("fov", toString f), ("pitch", toString pt),
              ("radius", toString r), ("source", src), ("return_error_code", "true")] := by
  intro addr sz key src hd f pt r hf hp hr hs
  simp only [buildParams, Option.map_some, requiredEntries, pyStr, headingEntries,
    fovEntries, if_neg hf, pitchEntries, if_neg hp, radiusEntries, if_neg hr,
    sourceEntries, if_neg hs, recEntries, if_pos rfl]
  rfl

/-- Witness for C7: spaces and an ampersand inside `size`, `key` and
`source` stay verbatim, while the same space in the address becomes
`%20`. -/
theorem C7_only_address_encoded_witness :
    buildParams ⟨some "k&k", some "a b", some "6 0", some (-7), 60, 5, 10, "out door", true⟩ =
      some [("location", "a%20b"), ("size", "6 0"), ("key", "k&k"),
            ("heading", "-7"), ("fov", "60"), ("pitch", "5"),
            ("radius", "10"), ("source", "out door"), ("return_error_code", "true")] := by
  have h := C7_only_address_encoded "a b" "6 0" "k&k" "out door" (-7) 60 5 10
    (by decide) (by decide) (by decide) (by decide)
  exact h.trans (by rfl)

/-! ### Validator component shapes -/

lemma apiKeyErrs_cases (k : Option String) :
    apiKeyErrs k = [] ∨ apiKeyErrs k = [apiKeyErrorMsg] := by
  unfold apiKeyErrs
  split_ifs <;> simp

lemma addressErrs_cases (a : Option String) :
    addressErrs a = [] ∨ addressErrs a = [addressErrorMsg] := by
  cases a with
  | none => right; rfl
  | some s =>
    simp only [addressErrs]
    split_ifs <;> simp

lemma sizeErrs_cases (sz : Option String) :
    sizeErrs sz = [] ∨ sizeErrs sz = [sizeErrorMsg] := by
  cases sz with
  | none => left; rfl
  | some s =>
    simp only [sizeErrs]
    split_ifs <;> simp

lemma apiKey_ne_address_msg : apiKeyErrorMsg ≠ addressErrorMsg := by decide

lemma apiKey_ne_size_msg : apiKeyErrorMsg ≠ sizeErrorMsg := by decide

lemma address_ne_size_msg : addressErrorMsg ≠ sizeErrorMsg := by decide

/-- The error list of `validate_node` is exactly the concatenation of the
three checks' contributions. -/
lemma validate_node_getD (k a sz : Option String) :
    (validate_node k a sz).getD [] = apiKeyErrs k ++ addressErrs a ++ sizeErrs sz := by
  unfold validate_node
  rcases h : (apiKeyErrs k ++ addressErrs a ++ sizeErrs sz).isEmpty with _ | _
  · have hne : ¬(apiKeyErrs k = [] ∧ addressErrs a = [] ∧ sizeErrs sz = []) := by
      rintro ⟨e1, e2, e3⟩
      simp [e1, e2, e3] at h
    simp [hne]
  · simp [h, List.isEmpty_iff.mp h]

/-- Claim C1 counterexample: `"600X400"` is non-empty and does not match
the spec pattern `^\d+x\d+$` (uppercase `X`), yet the size check accepts
it and the Validator reports no error at all, against the claim that every
non-empty malformed size string gets exactly one size-format error. -/
theorem C1_counterexample :
    specSizePattern "600X400" = false ∧ ("600X400" : String).data ≠ [] ∧
    _validate_size_format "600X400" = true ∧
    validate_node (some "key") (some "address") (some "600X400") = none := by
  exact ⟨rfl, by decide, rfl, rfl⟩

/-- Claim C1 (amended): for every size string matching `^\d+x\d+$`, the
Validator reports no size error exactly when both parsed dimensions are in
`(0, 640]`, and one size-format error otherwise; a missing size produces
no error; and in general a non-empty size string produces one size-format
error exactly when the tolerant check (lowercasing, whitespace/sign/
underscore-tolerant integer parsing) rejects it — so some strings outside
the pattern are accepted too.  The size error appears in the Validator's
output exactly when the size check contributes it. -/
theorem C1_size_validation_amended :
    (∀ s : String, specSizePattern s = true →
      ∃ w h : List (Fin 10), s.data = dChars w ++ 'x' :: dChars h ∧
        sizeErrs (some s) =
          if 0 < digitsToNat w ∧ 0 < digitsToNat h ∧
             digitsToNat w ≤ 640 ∧ digitsToNat h ≤ 640
          then [] else [sizeErrorMsg])
    ∧ sizeErrs none = []
    ∧ (∀ s : String, s.data ≠ [] →
        sizeErrs (some s) = if _validate_size_format s = true then [] else [sizeErrorMsg])
    ∧ (∀ k a sz : Option String,
        sizeErrorMsg ∈ (validate_node k a sz).getD [] ↔ sizeErrs sz = [sizeErrorMsg]) := by
  refine ⟨?_, rfl, ?_, ?_⟩
  · intro s hs
    obtain ⟨w, h, hw, hh, hdecomp⟩ := (specSizePattern_iff s).mp hs
    refine ⟨w, h, hdecomp, ?_⟩
    obtain ⟨l⟩ := s
    simp only at hdecomp
    subst hdecomp
    have hie : (dChars w ++ 'x' :: dChars h).isEmpty = false := by
      rcases dChars w with _ | ⟨c, cs⟩ <;> simp
    have hval := validate_size_format_digits hw hh
    simp only [sizeErrs, hval]
    by_cases hr : 0 < digitsToNat w ∧ 0 < digitsToNat h ∧
        digitsToNat w ≤ 640 ∧ digitsToNat h ≤ 640
    · obtain ⟨h1, h2, h3, h4⟩ := hr
      simp [h1, h2, h3, h4]
    · rw [if_neg hr]
      have hfalse : (decide (0 < digitsToNat w) && decide (0 < digitsToNat h) &&
          decide (digitsToNat w ≤ 640) && decide (digitsToNat h ≤ 640)) = false := by
        rcases Decidable.not_and_iff_or_not.mp hr with h1 | h1
        · simp [h1]
        · rcases Decidable.not_and_iff_or_not.mp h1 with h2 | h2
          · simp [h2]
          · rcases Decidable.not_and_iff_or_not.mp h2 with h3 | h3
            · simp [h3]
            · simp [h3]
      simp [hfalse, hie]
  · intro s hs
    have hie : s.data.isEmpty = false := by
      rcases s with ⟨_ | ⟨c, cs⟩⟩
      · simp at hs
      · simp
    simp only [sizeErrs, hie]
    rcases hv : _validate_size_format s with _ | _
    · simp [hv]
    · simp [hv]
  · intro k a sz
    rw [validate_node_getD]
    rcases apiKeyErrs_cases k with h1 | h1 <;>
      rcases addressErrs_cases a with h2 | h2 <;>
        rcases sizeErrs_cases sz with h3 | h3 <;>
          simp [h1, h2, h3, apiKey_ne_size_msg.symm, address_ne_size_msg.symm]

/-- Witness for C1: the in-range pattern string `"600x400"` yields no
size error, the out-of-range pattern string `"1000x400"` yields exactly
the size-format error, and the size error then shows up in the Validator
output. -/
theorem C1_size_validation_amended_witness :
    sizeErrs (some "600x400") = [] ∧ sizeErrs (some "1000x400") = [sizeErrorMsg] ∧
    sizeErrorMsg ∈ (validate_node (some "key") (some "addr") (some "1000x400")).getD [] := by
  refine ⟨?_, ?_, ?_⟩
  · have h := C1_size_validation_amended.2.2.1 "600x400" (by decide)
    simpa using h
  · have h := C1_size_validation_amended.2.2.1 "1000x400" (by decide)
    simpa using h
  · exact (C1_size_validation_amended.2.2.2 (some "key") (some "addr")
      (some "1000x400")).mpr (by rfl)

/-- Claim C8: `validate_node` checks its three rules independently and
without short-circuiting: the reported list is the concatenation of the
three checks' contributions (one error per violated rule, each present
exactly when its rule is violated), and the result is the absent value
exactly when no rule is violated. -/
theorem C8_validator_independence :
    ∀ k a sz : Option String,
      ((validate_node k a sz).getD [] = apiKeyErrs k ++ addressErrs a ++ sizeErrs sz)
      ∧ (validate_node k a sz = none ↔
          apiKeyErrs k = [] ∧ addressErrs a = [] ∧ sizeErrs sz = [])
      ∧ (apiKeyErrorMsg ∈ (validate_node k a sz).getD [] ↔ apiKeyErrs k ≠ [])
      ∧ (addressErrorMsg ∈ (validate_node k a sz).getD [] ↔ addressErrs a ≠ [])
      ∧ (sizeErrorMsg ∈ (validate_node k a sz).getD [] ↔ sizeErrs sz ≠ [])
      ∧ ((validate_node k a sz).getD []).length =
          (apiKeyErrs k).length + (addressErrs a).length + (sizeErrs sz).length := by
  intro k a sz
  refine ⟨validate_node_getD k a sz, ?_, ?_, ?_, ?_, ?_⟩ <;>
    [skip; rw [validate_node_getD]; rw [validate_node_getD];
     rw [validate_node_getD]; rw [validate_node_getD]] <;>
    rcases apiKeyErrs_cases k with h1 | h1 <;>
      rcases addressErrs_cases a with h2 | h2 <;>
        rcases sizeErrs_cases sz with h3 | h3 <;>
          simp [validate_node, h1, h2, h3, apiKey_ne_address_msg, apiKey_ne_size_msg,
            address_ne_size_msg, apiKey_ne_address_msg.symm, apiKey_ne_size_msg.symm,
            address_ne_size_msg.symm]

/-- Witness for C8 at an input violating all three rules at once: absent
key, whitespace-only address and malformed size give the three errors in
check order. -/
theorem C8_validator_independence_witness :
    validate_node none (some " ") (some "abc") =
      some [apiKeyErrorMsg, addressErrorMsg, sizeErrorMsg] ∧
    apiKeyErrorMsg ∈ (validate_node none (some " ") (some "abc")).getD [] := by
  refine ⟨by rfl, ?_⟩
  exact (C8_validator_independence none (some " ") (some "abc")).2.2.1.mpr (by decide)

/-! ### Query-entry key shapes -/

lemma requiredEntries_keys (addr : String) (sz k : Option String) :
    (requiredEntries addr sz k).map Prod.fst = ["location", "size", "key"] := rfl

lemma headingEntries_keys (hd : Option Int) :
    (headingEntries hd).map Prod.fst = if hd.isSome then ["heading"] else [] := by
  cases hd <;> rfl

lemma fovEntries_keys (f : Int) :
    (fovEntries f).map Prod.fst = if f = 90 then [] else ["fov"] := by
  unfold fovEntries
  split_ifs <;> rfl

lemma pitchEntries_keys (pt : Int) :
    (pitchEntries pt).map Prod.fst = if pt = 0 then [] else ["pitch"] := by
  unfold pitchEntries
  split_ifs <;> rfl

lemma radiusEntries_keys (r : Int) :
    (radiusEntries r).map Prod.fst = if r = 50 then [] else ["radius"] := by
  unfold radiusEntries
  split_ifs <;> rfl

lemma sourceEntries_keys (src : String) :
    (sourceEntries src).map Prod.fst = if src = "default" then [] else ["source"] := by
  unfold sourceEntries
  split_ifs <;> rfl

lemma recEntries_keys (b : Bool) :
    (recEntries b).map Prod.fst = if b then ["return_error_code"] else [] := by
  cases b <;> rfl

lemma sublist_if_pos (c : Prop) [Decidable c] (x : String) :
    List.Sublist (if c then [x] else []) [x] := by
  split_ifs
  · exact List.Sublist.refl _
  · exact List.nil_sublist _

lemma sublist_if_neg (c : Prop) [Decidable c] (x : String) :
    List.Sublist (if c then [] else [x]) [x] := by
  split_ifs
  · exact List.nil_sublist _
  · exact List.Sublist.refl _

lemma mem_if_pos (c : Prop) [Decidable c] (x y : String) :
    (x ∈ (if c then [y] else [])) ↔ (x = y ∧ c) := by
  split_ifs with h <;> simp [h]

lemma mem_if_neg (c : Prop) [Decidable c] (x y : String) :
    (x ∈ (if c then [] else [y])) ↔ (x = y ∧ ¬c) := by
  split_ifs with h <;> simp [h]

lemma count_if_pos (c : Prop) [Decidable c] (x y : String) (hxy : y ≠ x) :
    ((if c then [y] else []) : List String).count x = 0 := by
  split_ifs <;> simp [List.count_cons, hxy]

lemma count_if_neg (c : Prop) [Decidable c] (x y : String) (hxy : y ≠ x) :
    ((if c then [] else [y]) : List String).count x = 0 := by
  split_ifs <;> simp [List.count_cons, hxy]

/-- Claim C4 counterexample: with every parameter at its documented
default — heading absent, fov 90, pitch 0, radius 50, source `"default"`
and return_error_code at its default `True` (source line 106) — the built
query still contains a `return_error_code` entry, so the optional entries
do not appear "only when non-default". -/
theorem C4_counterexample :
    ParamState.return_error_code
        ⟨some "KEY", some "addr", some "600x400", none, 90, 0, 50, "default", true⟩ = true
    ∧ ((buildParams
        ⟨some "KEY", some "addr", some "600x400", none, 90, 0, 50, "default", true⟩).getD
          []).map Prod.fst = ["location", "size", "key", "return_error_code"] := by
  exact ⟨rfl, rfl⟩

/-- Claim C4 (amended): the optional query entries appear in the fixed
order heading, fov, pitch, radius, source, return_error_code — the key
list is always a sublist of the canonical order — with heading present
exactly when set, fov when ≠ 90, pitch when ≠ 0, radius when ≠ 50,
source when ≠ `"default"`, and `return_error_code=true` exactly when the
flag is true (which is its documented default).  For every parameter set
with fov = 60, the query contains the entry `fov=60` exactly once,
immediately after the heading entry when heading is set and otherwise in
heading's place after the key entry. -/
theorem C4_query_order_amended :
    ∀ (st : ParamState) (addr : String) (ks : List String),
      st.address = some addr →
      ks = ((buildParams st).getD []).map Prod.fst →
      List.Sublist ks ["location", "size", "key", "heading", "fov", "pitch", "radius",
        "source", "return_error_code"]
      ∧ ("heading" ∈ ks ↔ st.heading ≠ none)
      ∧ ("fov" ∈ ks ↔ st.fov ≠ 90)
      ∧ ("pitch" ∈ ks ↔ st.pitch ≠ 0)
      ∧ ("radius" ∈ ks ↔ st.radius ≠ 50)
      ∧ ("source" ∈ ks ↔ st.source ≠ "default")
      ∧ ("return_error_code" ∈ ks ↔ st.return_error_code = true)
      ∧ (st.fov = 60 → ks.count "fov" = 1 ∧
          buildParams st = some (requiredEntries addr st.size st.api_key ++
            headingEntries st.heading ++ [("fov", "60")] ++ pitchEntries st.pitch ++
            radiusEntries st.radius ++ sourceEntries st.source ++
            recEntries st.return_error_code)) := by
  intro st addr ks ha hks
  obtain ⟨k, a, sz, hd, f, pt, r, src, rec⟩ := st
  simp only at ha hks ⊢
  subst ha
  have hbp : buildParams ⟨k, some addr, sz, hd, f, pt, r, src, rec⟩ =
      some (requiredEntries addr sz k ++ headingEntries hd ++ fovEntries f ++
        pitchEntries pt ++ radiusEntries r ++ sourceEntries src ++ recEntries rec) := by
    simp only [buildParams]
    rfl
  rw [hbp] at hks
  simp only [Option.getD_some, List.map_append, requiredEntries_keys, headingEntries_keys,
    fovEntries_keys, pitchEntries_keys, radiusEntries_keys, sourceEntries_keys,
    recEntries_keys] at hks
  subst hks
  refine ⟨?_, ?_, ?_, ?_, ?_, ?_, ?_, ?_⟩
  · have hcan : (["location", "size", "key", "heading", "fov", "pitch", "radius",
        "source", "return_error_code"] : List String) =
        ["location", "size", "key"] ++ ["heading"] ++ ["fov"] ++ ["pitch"] ++
          ["radius"] ++ ["source"] ++ ["return_error_code"] := rfl
    rw [hcan]
    exact ((((((List.Sublist.refl _).append (sublist_if_pos _ _)).append
      (sublist_if_neg _ _)).append (sublist_if_neg _ _)).append
        (sublist_if_neg _ _)).append (sublist_if_neg _ _)).append (sublist_if_pos _ _)
  · simp [List.mem_append, mem_if_pos, mem_if_neg, Option.isSome_iff_ne_none]
  · simp [List.mem_append, mem_if_pos, mem_if_neg]
  · simp [List.mem_append, mem_if_pos, mem_if_neg]
  · simp [List.mem_append, mem_if_pos, mem_if_neg]
  · simp [List.mem_append, mem_if_pos, mem_if_neg]
  · simp [List.mem_append, mem_if_pos, mem_if_neg]
  · intro hf60
    subst hf60
    constructor
    · have h60 : (if ((60 : Int) = 90) then ([] : List String) else ["fov"]) = ["fov"] := by
        norm_num
      rw [h60]
      simp only [List.count_append]
      rw [count_if_pos _ "fov" "heading" (by decide), count_if_neg _ "fov" "pitch" (by decide),
        count_if_neg _ "fov" "radius" (by decide), count_if_neg _ "fov" "source" (by decide),
        count_if_pos _ "fov" "return_error_code" (by decide)]
      decide
    · rw [hbp]
      have h60 : fovEntries 60 = [("fov", "60")] := rfl
      rw [h60]

/-- Witness for C4 at fov 60 with heading set: `fov=60` appears once,
directly after the heading entry. -/
theorem C4_query_order_amended_witness :
    (((buildParams ⟨some "KEY", some "addr", some "600x400", some 10, 60, 0, 50,
        "default", false⟩).getD []).map Prod.fst).count "fov" = 1
    ∧ buildParams ⟨some "KEY", some "addr", some "600x400", some 10, 60, 0, 50,
        "default", false⟩ =
      some [("location", "addr"), ("size", "600x400"), ("key", "KEY"),
            ("heading", "10"), ("fov", "60")] := by
  have h := (C4_query_order_amended
    ⟨some "KEY", some "addr", some "600x400", some 10, 60, 0, 50, "default", false⟩
    "addr" _ rfl rfl).2.2.2.2.2.2.2 rfl
  exact ⟨h.1, h.2.trans (by rfl)⟩

/-- Claim C10: the documented numeric ranges for heading, fov, pitch and
radius are enforced nowhere: the Validator's result does not depend on
those parameters at all, and for any values outside the documented ranges
the request builder inserts them verbatim, neither rejecting nor clamping
them. -/
theorem C10_ranges_not_enforced :
    ∀ (st : ParamState) (addr : String) (hv : Int),
      st.address = some addr → st.heading = some hv →
      st.fov ≠ 90 → st.pitch ≠ 0 → st.radius ≠ 50 →
      validate_node_state st =
        validate_node_state { st with heading := none, fov := 90, pitch := 0, radius := 50 }
      ∧ buildParams st = some (requiredEntries addr st.size st.api_key ++
          [("heading", toString hv)] ++ [("fov", toString st.fov)] ++
          [("pitch", toString st.pitch)] ++ [("radius", toString st.radius)] ++
          sourceEntries st.source ++ recEntries st.return_error_code) := by
  intro st addr hv ha hh hf hp hr
  obtain ⟨k, a, sz, hd, f, pt, r, src, rec⟩ := st
  simp only at ha hh hf hp hr ⊢
  subst ha
  subst hh
  refine ⟨rfl, ?_⟩
  simp only [buildParams, headingEntries, fovEntries, if_neg hf,
    pitchEntries, if_neg hp, radiusEntries, if_neg hr]
  rfl

/-- Witness for C10: heading 999 (documented 0-360), fov 5 (documented
10-120), pitch 200 (documented -90-90) and radius 0 (documented 1-1000)
pass validation and land verbatim in the query. -/
theorem C10_ranges_not_enforced_witness :
    validate_node_state
        ⟨some "KEY", some "1600 Main", some "600x400", some 999, 5, 200, 0, "default", true⟩ =
      none
    ∧ buildParams
        ⟨some "KEY", some "1600 Main", some "600x400", some 999, 5, 200, 0, "default", true⟩ =
      some [("location", "1600%20Main"), ("size", "600x400"), ("key", "KEY"),
            ("heading", "999"), ("fov", "5"), ("pitch", "200"), ("radius", "0"),
            ("return_error_code", "true")] := by
  refine ⟨by rfl, ?_⟩
  have h := (C10_ranges_not_enforced
    ⟨some "KEY", some "1600 Main", some "600x400", some 999, 5, 200, 0, "default", true⟩
    "1600 Main" 999 rfl rfl (by decide) (by decide) (by decide)).2
  exact h.trans (by rfl)
